import Mathlib

/-!
# sync3c: rendition selection and download

A shallow embedding of `sync3c.go`: the mime priority lookup
(`priorityForMimeType`), the selection loop of `main` for one event, the
extension table filled in by `main`, and `download` over an explicit
filesystem / network state.

Library functions the program calls but does not define are arguments of the
definitions that use them:

* `lower`     stands for `strings.ToLower`,
* `baseName`  stands for `sanitize.BaseName`,
* `sanPath`   stands for `sanitize.Path`,
* `join`      stands for `filepath.Join` (two arguments).

Every general theorem below holds for all values of these arguments.  Closed
evaluations at concrete inputs use `asciiLower`, which agrees with
`strings.ToLower` on ASCII strings.
-/

namespace Sync3c

deriving instance DecidableEq for Except

/-! ## Data model -/

/-- Modelled from the spec: the `Recording` struct is declared outside
`sync3c.go`; the fields are the ones `main` and `download` read
(`mime_type, language, width, height, high_quality, size, length,
recording_url, url`).  Integers are unbounded; the loop only compares them. -/
structure Recording where
  MimeType : String
  Language : String
  Width : Int
  Height : Int
  HighQuality : Bool
  Size : Int
  Length : Int
  RecordingURL : String
  URL : String
deriving DecidableEq, Repr

/-- The Go zero value `Recording{}`. -/
def Recording.zero : Recording :=
  { MimeType := "", Language := "", Width := 0, Height := 0, HighQuality := false,
    Size := 0, Length := 0, RecordingURL := "", URL := "" }

/-- Modelled from the spec: the `Event` struct is declared outside
`sync3c.go`; the fields are the ones `main` and `download` read. -/
structure Event where
  Title : String
  Subtitle : String
  Persons : List String
  OriginalLanguage : String
  URL : String
  Description : String
deriving DecidableEq, Repr

/-- The fields of `Conference` that `download` reads. -/
structure Conference where
  Title : String
  URL : String
deriving DecidableEq, Repr

/-! ## Constants -/

def ignoreTranslations : Bool := true

def downloadPath : String := "./downloads/"

def preferredMimeTypes : List String :=
  ["video/webm", "video/mp4", "video/ogg", "audio/ogg", "audio/opus", "audio/mpeg",
   "application/x-subrip"]

/-- ASCII lower-casing of one character. -/
def asciiLowerChar (c : Char) : Char :=
  if 65 ≤ c.toNat ∧ c.toNat ≤ 90 then Char.ofNat (c.toNat + 32) else c

/-- ASCII lower-casing; equal to `strings.ToLower` on ASCII strings. -/
def asciiLower (s : String) : String := ⟨s.data.map asciiLowerChar⟩

/-! ## `priorityForMimeType` -/

/-- The `for i, v := range preferredMimeTypes` loop, started at index `i` on
the remaining slice; `-1` when the loop runs out. -/
def priorityLoop (lower : String → String) (mime : String) : List String → Nat → Int
  | [], _ => -1
  | v :: vs, i => if lower mime == v then (i : Int) else priorityLoop lower mime vs (i + 1)

def priorityForMimeType (lower : String → String) (mime : String) : Int :=
  priorityLoop lower mime preferredMimeTypes 0

/-! ## The selection loop of `main` -/

/-- The loop variables `bestMatch` and `highestPriority`. -/
structure SelState where
  bestMatch : Recording
  highestPriority : Int
deriving DecidableEq, Repr

/-- One iteration of `for _, m := range media.Recordings`; `.error msg` is
`panic(msg)`.  The `Printf` lines are omitted. -/
def loopBody (lower : String → String) (e : Event) (st : SelState) (m : Recording) :
    Except String SelState :=
  if ignoreTranslations && m.Language != e.OriginalLanguage then
    .ok st
  else
    let prio := priorityForMimeType lower m.MimeType
    if prio < 0 then
      .error ("Unknown mimetype encountered:" ++ m.MimeType)
    else if prio < st.highestPriority
        || (prio == st.highestPriority && m.Width > st.bestMatch.Width)
        || st.highestPriority == -1 then
      .ok { bestMatch := m, highestPriority := prio }
    else
      .ok st

/-- The whole `range` loop. -/
def selectLoop (lower : String → String) (e : Event) :
    List Recording → SelState → Except String SelState
  | [], st => .ok st
  | m :: ms, st =>
    match loopBody lower e st m with
    | .error msg => .error msg
    | .ok st1 => selectLoop lower e ms st1

/-- Lines 141-166 of `main`: initialisation, the emptiness check and the loop.
The result is the value of `bestMatch` that is handed to `download`. -/
def selectBest (lower : String → String) (e : Event) (recordings : List Recording) :
    Except String Recording :=
  let st0 : SelState := { bestMatch := Recording.zero, highestPriority := -1 }
  if recordings.length == 0 then
    .error "No recordings found for this event!"
  else
    match selectLoop lower e recordings st0 with
    | .error msg => .error msg
    | .ok st => .ok st.bestMatch

/-- The language filter at the top of the loop body: `m` is not skipped. -/
def survives (e : Event) (m : Recording) : Bool :=
  !(ignoreTranslations && m.Language != e.OriginalLanguage)

/-! ## The extension table -/

/-- A Go `map[string]string`: the bindings, the newest first. -/
structure StrMap where
  entries : List (String × String)
deriving DecidableEq, Repr

/-- The expression `make(map[string]string)`. -/
def StrMap.empty : StrMap := ⟨[]⟩

/-- The statement `m[k] = v`. -/
def StrMap.set (m : StrMap) (k v : String) : StrMap := ⟨(k, v) :: m.entries⟩

/-- Lookup in a list of bindings; the zero value `""` when `k` has none. -/
def lookupStr : List (String × String) → String → String
  | [], _ => ""
  | (k1, v) :: rest, k => if k == k1 then v else lookupStr rest k

/-- The expression `m[k]`. -/
def StrMap.get (m : StrMap) (k : String) : String := lookupStr m.entries k

/-- The table `extensionForMimeTypes` after the six assignments at the top of
`main` (lines 106-111), starting from the empty map of line 22. -/
def extensionForMimeTypes : StrMap :=
  ((((((StrMap.empty.set "video/webm" "webm").set "video/mp4" "mp4").set "video/ogg" "ogm").set
    "audio/ogg" "ogg").set "audio/opus" "opus").set "audio/mpeg" "mp3")

/-! ## `download` -/

/-- The variable `author` after lines 67-71. -/
def downloadAuthor (baseName : String → String) (e : Event) : String :=
  if e.Persons.length > 0 then baseName (e.Persons.getD 0 "") ++ " - " else ""

/-- The variable `subtitle` after lines 68-74.  `len` counts bytes and
`String.length` characters; both are positive for the same strings. -/
def downloadSubtitle (baseName : String → String) (e : Event) : String :=
  if e.Subtitle.length > 0 then " (" ++ baseName e.Subtitle ++ ")" else ""

/-- The variable `path` (line 76). -/
def downloadDir (sanPath : String → String) (join : String → String → String)
    (v : Conference) : String :=
  join downloadPath (sanPath v.Title)

/-- The variable `basename` (line 77). -/
def downloadBasename (baseName : String → String) (e : Event) (m : Recording) : String :=
  (downloadAuthor baseName e ++ baseName e.Title ++ downloadSubtitle baseName e) ++ "."
    ++ extensionForMimeTypes.get m.MimeType

/-- The variable `filename` (line 78). -/
def downloadFilename (baseName sanPath : String → String) (join : String → String → String)
    (v : Conference) (e : Event) (m : Recording) : String :=
  join (downloadDir sanPath join v) (downloadBasename baseName e m)

/-- The filesystem and the network as far as `download` touches them. -/
structure World where
  /-- regular files: path and content -/
  files : List (String × List Nat)
  /-- directories -/
  dirs : List String
  /-- URLs given to `http.Get` so far, the newest first -/
  gets : List String
  /-- number of `io.Copy` runs so far -/
  copies : Nat
deriving DecidableEq, Repr

/-- What the environment answers during one call of `download`: whether
`os.Stat` fails with an error other than not-exist (a path component that is
not a directory, a name that is too long, a permission), whether `os.MkdirAll`
works, whether `os.Create` and `http.Get` fail, the response body, and whether
`io.Copy` fails after writing `copied` bytes. -/
structure Outcome where
  statErr : Bool
  mkdirOk : Bool
  createErr : Option String
  getErr : Option String
  body : List Nat
  copyErr : Option String
  copied : Nat
deriving DecidableEq, Repr

/-- Nothing, file or directory, is at `p`: `os.Stat(p)` reports not-exist unless
it fails for another reason (`Outcome.statErr`). -/
def World.statNotExist (w : World) (p : String) : Bool :=
  !(w.files.any (fun f => f.1 == p) || w.dirs.contains p)

/-- The call `os.MkdirAll(p, 0755)`; `download` drops its error.  Only the
directory `p` itself is recorded, not the parents created on the way. -/
def World.mkdirAll (w : World) (o : Outcome) (p : String) : World :=
  if o.mkdirOk && !w.files.any (fun f => f.1 == p) && !w.dirs.contains p then
    { w with dirs := p :: w.dirs }
  else w

/-- The call `os.Create(p)`: an empty regular file at `p`, or an error. -/
def World.create (w : World) (o : Outcome) (p : String) : Except String World :=
  match o.createErr with
  | some err => .error err
  | none =>
    if w.dirs.contains p then .error "is a directory"
    else .ok { w with files := (p, []) :: w.files.filter (fun f => f.1 != p) }

/-- The bytes `io.Copy` appends to the file at `p`. -/
def World.write (w : World) (p : String) (bytes : List Nat) : World :=
  { w with
    files := w.files.map (fun f => if f.1 == p then (f.1, f.2 ++ bytes) else f)
    copies := w.copies + 1 }

/-- The function `download` (lines 66-103): the new state and the returned
error (`none` is `nil`).  The `Println` lines are omitted. -/
def download (baseName sanPath : String → String) (join : String → String → String)
    (o : Outcome) (w : World) (v : Conference) (e : Event) (m : Recording) :
    World × Option String :=
  let path := downloadDir sanPath join v
  let filename := downloadFilename baseName sanPath join v e m
  if !o.statErr && w.statNotExist filename then
    let w1 := w.mkdirAll o path
    match w1.create o filename with
    | .error err => (w1, some err)
    | .ok w2 =>
      let w3 := { w2 with gets := m.RecordingURL :: w2.gets }
      match o.getErr with
      | some err => (w3, some err)
      | none =>
        match o.copyErr with
        | some err => (w3.write filename (o.body.take o.copied), some err)
        | none => (w3.write filename o.body, none)
  else
    (w, none)

/-- Lines 141-171 of `main` for one event: the selection, then `download`;
`some msg` in the result is `panic(msg)`. -/
def handleEvent (lower baseName sanPath : String → String) (join : String → String → String)
    (o : Outcome) (w : World) (v : Conference) (e : Event) (recordings : List Recording) :
    World × Option String :=
  match selectBest lower e recordings with
  | .error msg => (w, some msg)
  | .ok bestMatch => download baseName sanPath join o w v e bestMatch

/-! ## Concrete inputs -/

/-- A recording with the given mime type, language and width; the other fields
are zero. -/
def mkRec (mime lang : String) (w : Int) : Recording :=
  { Recording.zero with MimeType := mime, Language := lang, Width := w }

/-- An event held in English. -/
def exEvent : Event :=
  { Title := "Intro", Subtitle := "", Persons := ["Jane Doe"], OriginalLanguage := "en",
    URL := "", Description := "" }

/-- The candidate list of the example in the specification, plus a second,
narrower webm rendition. -/
def exRecordings : List Recording :=
  [mkRec "audio/opus" "en" 0, mkRec "video/webm" "en" 1280, mkRec "video/webm" "en" 1920]

/-- A recording list made only of translations of `exEvent`. -/
def exTranslations : List Recording :=
  [mkRec "video/webm" "de" 1920]

/-- One recording whose mime type is spelled in upper case. -/
def exUpper : List Recording :=
  [mkRec "VIDEO/WEBM" "en" 1920]

/-- A list with a recording of a mime type outside the table. -/
def exUnknown : List Recording :=
  [mkRec "video/webm" "en" 1920, mkRec "text/plain" "en" 0]

/-- A world with nothing in it. -/
def emptyWorld : World := { files := [], dirs := [], gets := [], copies := 0 }

/-- A world in which the target file of the example already exists. -/
def exWorld : World :=
  { files := [("downloads/c/Jane Doe - Intro.webm", [1, 2, 3])], dirs := ["downloads/c"],
    gets := [], copies := 0 }

/-- The conference of the example. -/
def exConference : Conference := { Title := "c", URL := "" }

/-- An environment in which every call succeeds. -/
def exOutcome : Outcome :=
  { statErr := false, mkdirOk := true, createErr := none, getErr := none, body := [7, 8], copyErr := none,
    copied := 0 }

/-- An environment in which `http.Get` fails. -/
def exGetFails : Outcome :=
  { statErr := false, mkdirOk := true, createErr := none, getErr := some "unsupported protocol scheme",
    body := [], copyErr := none, copied := 0 }

/-- A stand-in for `filepath.Join`, used only to evaluate at concrete inputs. -/
def exJoin (a b : String) : String :=
  if a == "./downloads/" then "downloads/" ++ b else a ++ "/" ++ b

/-! ## The file name as the specification words it -/

/-- The author prefix of the specification: the sanitized first person followed
by `" - "` when there is a person, empty otherwise. -/
def specPrefix (S : String → String) (e : Event) : String :=
  match e.Persons with
  | [] => ""
  | first :: _ => S first ++ " - "

/-- The subtitle suffix of the specification: the sanitized subtitle in
parentheses after a blank when the subtitle is non-empty, empty otherwise. -/
def specSuffix (S : String → String) (e : Event) : String :=
  if e.Subtitle = "" then "" else " (" ++ S e.Subtitle ++ ")"

/-- The file name of the specification. -/
def specBasename (S : String → String) (e : Event) (m : Recording) : String :=
  specPrefix S e ++ S e.Title ++ specSuffix S e ++ "." ++ extensionForMimeTypes.get m.MimeType

/-! ## Facts about the selection loop -/

/-- The recordings of `ms` the language filter lets through. -/
def survivors (e : Event) (ms : List Recording) : List Recording :=
  ms.filter (survives e)

/-- What the loop variables hold once at least one recording of `seen` was
accepted: `bestMatch` is one of them, `highestPriority` is its index, no seen
recording has a smaller index, and none with the same index is wider. -/
def IsBest (lower : String → String) (seen : List Recording) (st : SelState) : Prop :=
  st.bestMatch ∈ seen ∧
  st.highestPriority = priorityForMimeType lower st.bestMatch.MimeType ∧
  0 ≤ st.highestPriority ∧
  ∀ r ∈ seen, st.highestPriority ≤ priorityForMimeType lower r.MimeType ∧
    (priorityForMimeType lower r.MimeType = st.highestPriority → r.Width ≤ st.bestMatch.Width)

/-- Loop invariant: nothing accepted yet and the variables are untouched, or
`IsBest`. -/
def LoopInv (lower : String → String) (seen : List Recording) (st : SelState) : Prop :=
  (seen = [] ∧ st = { bestMatch := Recording.zero, highestPriority := -1 }) ∨
    IsBest lower seen st

theorem loopBody_skip (lower : String → String) (e : Event) (st : SelState) (m : Recording)
    (h : survives e m = false) : loopBody lower e st m = .ok st := by
  unfold survives at h
  unfold loopBody
  simp only [Bool.not_eq_false_eq_eq_true] at h
  simp [h]

theorem loopBody_unknown (lower : String → String) (e : Event) (st : SelState) (m : Recording)
    (h : survives e m = true) (hp : priorityForMimeType lower m.MimeType < 0) :
    loopBody lower e st m = .error ("Unknown mimetype encountered:" ++ m.MimeType) := by
  unfold survives at h
  unfold loopBody
  simp only [Bool.not_eq_true_eq_eq_false] at h
  simp [h, hp]

theorem loopBody_inv (lower : String → String) (e : Event) (seen : List Recording)
    (st : SelState) (m : Recording)
    (h : survives e m = true) (hp : 0 ≤ priorityForMimeType lower m.MimeType)
    (hinv : LoopInv lower seen st) :
    ∃ st1, loopBody lower e st m = .ok st1 ∧ IsBest lower (seen ++ [m]) st1 := by
  unfold survives at h
  simp only [Bool.not_eq_true_eq_eq_false] at h
  unfold loopBody
  simp only [h, Bool.false_eq_true, if_false, not_lt.mpr hp]
  by_cases hc : (priorityForMimeType lower m.MimeType < st.highestPriority
      ∨ (priorityForMimeType lower m.MimeType = st.highestPriority
          ∧ st.bestMatch.Width < m.Width)) ∨ st.highestPriority = -1
  · have hb : (decide (priorityForMimeType lower m.MimeType < st.highestPriority)
        || (priorityForMimeType lower m.MimeType == st.highestPriority
            && decide (m.Width > st.bestMatch.Width))
        || st.highestPriority == -1) = true := by
      simpa using hc
    rw [if_pos hb]
    refine ⟨_, rfl, ?_⟩
    refine ⟨by simp, rfl, hp, ?_⟩
    intro r hr
    rcases List.mem_append.mp hr with hr | hr
    · rcases hinv with ⟨hnil, _⟩ | ⟨_, _, h0, hall⟩
      · rw [hnil] at hr
        cases hr
      · obtain ⟨h1, h2⟩ := hall r hr
        simp only
        constructor
        · omega
        · intro heq
          rcases hc with (hc | ⟨hc1, hc2⟩) | hc
          · omega
          · have := h2 (by omega)
            omega
          · omega
    · rw [List.mem_singleton.mp hr]
      simp
  · have hb : ¬ (decide (priorityForMimeType lower m.MimeType < st.highestPriority)
        || (priorityForMimeType lower m.MimeType == st.highestPriority
            && decide (m.Width > st.bestMatch.Width))
        || st.highestPriority == -1) = true := by
      simpa using hc
    rw [if_neg hb]
    refine ⟨_, rfl, ?_⟩
    rcases hinv with ⟨_, hst⟩ | ⟨hmem, hpr, h0, hall⟩
    · rw [hst] at hc
      exact absurd (Or.inr rfl) hc
    · refine ⟨List.mem_append_left _ hmem, hpr, h0, ?_⟩
      intro r hr
      rcases List.mem_append.mp hr with hr | hr
      · exact hall r hr
      · rw [List.mem_singleton.mp hr]
        constructor
        · omega
        · intro heq
          by_contra hw
          exact hc (Or.inl (Or.inr ⟨heq, by omega⟩))

theorem selectLoop_inv (lower : String → String) (e : Event) (ms : List Recording) :
    ∀ (seen : List Recording) (st : SelState), LoopInv lower seen st →
      (∀ m ∈ ms, survives e m = true → 0 ≤ priorityForMimeType lower m.MimeType) →
      ∃ st1, selectLoop lower e ms st = .ok st1 ∧ LoopInv lower (seen ++ survivors e ms) st1 := by
  induction ms with
  | nil =>
    intro seen st hinv _
    exact ⟨st, rfl, by simpa [survivors] using hinv⟩
  | cons m ms ih =>
    intro seen st hinv hknown
    have hrest : ∀ r ∈ ms, survives e r = true → 0 ≤ priorityForMimeType lower r.MimeType :=
      fun r hr => hknown r (List.mem_cons_of_mem _ hr)
    cases hs : survives e m with
    | false =>
      obtain ⟨st1, h1, h2⟩ := ih seen st hinv hrest
      refine ⟨st1, ?_, ?_⟩
      · simp only [selectLoop, loopBody_skip lower e st m hs]
        exact h1
      · simpa [survivors, hs] using h2
    | true =>
      obtain ⟨st0, hb, hbest⟩ :=
        loopBody_inv lower e seen st m hs (hknown m (List.mem_cons_self _ _) hs) hinv
      obtain ⟨st1, h1, h2⟩ := ih (seen ++ [m]) st0 (Or.inr hbest) hrest
      refine ⟨st1, ?_, ?_⟩
      · simp only [selectLoop, hb]
        exact h1
      · simpa [survivors, hs] using h2

theorem selectLoop_unknown (lower : String → String) (e : Event) (ms : List Recording) :
    ∀ (st : SelState),
      (∃ m ∈ ms, survives e m = true ∧ priorityForMimeType lower m.MimeType < 0) →
      ∃ r ∈ ms, survives e r = true ∧ priorityForMimeType lower r.MimeType < 0 ∧
        selectLoop lower e ms st = .error ("Unknown mimetype encountered:" ++ r.MimeType) := by
  induction ms with
  | nil =>
    intro st h
    obtain ⟨m, hm, _⟩ := h
    cases hm
  | cons m ms ih =>
    intro st h
    by_cases hbad : survives e m = true ∧ priorityForMimeType lower m.MimeType < 0
    · refine ⟨m, List.mem_cons_self _ _, hbad.1, hbad.2, ?_⟩
      simp only [selectLoop, loopBody_unknown lower e st m hbad.1 hbad.2]
    · have hrest : ∃ r ∈ ms, survives e r = true ∧ priorityForMimeType lower r.MimeType < 0 := by
        obtain ⟨r, hr, hr1, hr2⟩ := h
        rcases List.mem_cons.mp hr with rfl | hr
        · exact absurd ⟨hr1, hr2⟩ hbad
        · exact ⟨r, hr, hr1, hr2⟩
      have hstep : ∃ st0, loopBody lower e st m = .ok st0 := by
        cases hs : survives e m with
        | false => exact ⟨st, loopBody_skip lower e st m hs⟩
        | true =>
          have hp : 0 ≤ priorityForMimeType lower m.MimeType := by
            by_contra hneg
            exact hbad ⟨hs, by omega⟩
          unfold survives at hs
          simp only [Bool.not_eq_true_eq_eq_false] at hs
          unfold loopBody
          simp only [hs, Bool.false_eq_true, if_false, not_lt.mpr hp]
          split
          · exact ⟨_, rfl⟩
          · exact ⟨_, rfl⟩
      obtain ⟨st0, hb⟩ := hstep
      obtain ⟨r, hr, hr1, hr2, hr3⟩ := ih st0 hrest
      refine ⟨r, List.mem_cons_of_mem _ hr, hr1, hr2, ?_⟩
      simp only [selectLoop, hb]
      exact hr3

/-- The priority index is `-1` or a position of `preferredMimeTypes`, and it is
a position exactly when the lower-cased mime type is in the list. -/
theorem priorityLoop_spec (lower : String → String) (mime : String) (vs : List String) :
    ∀ i : Nat, (lower mime ∈ vs → (i : Int) ≤ priorityLoop lower mime vs i) ∧
      (lower mime ∉ vs → priorityLoop lower mime vs i = -1) := by
  induction vs with
  | nil =>
    intro i
    simp [priorityLoop]
  | cons v vs ih =>
    intro i
    by_cases hv : lower mime = v
    · simp [priorityLoop, hv]
    · obtain ⟨h1, h2⟩ := ih (i + 1)
      simp only [priorityLoop, beq_iff_eq, hv, if_false, List.mem_cons, false_or]
      refine ⟨fun hm => ?_, h2⟩
      have := h1 hm
      push_cast at this
      omega

theorem priority_neg_iff (lower : String → String) (mime : String) :
    priorityForMimeType lower mime < 0 ↔ lower mime ∉ preferredMimeTypes := by
  obtain ⟨h1, h2⟩ := priorityLoop_spec lower mime preferredMimeTypes 0
  unfold priorityForMimeType
  constructor
  · intro hneg hmem
    have := h1 hmem
    simp only [Nat.cast_zero] at this
    omega
  · intro hn
    rw [h2 hn]
    decide

/-! ## The selection claims -/

/-- C1: for every recording list whose members all pass the language filter and
all have a mime type known to `priorityForMimeType`, the selection leaves in
`bestMatch` a member of the list whose priority index is the smallest one
occurring in the list and whose width is the greatest among the recordings of
that index.  (For the empty list nothing occurs and `main` panics before the
loop.) -/
theorem selectBest_min_priority_max_width (lower : String → String) (e : Event)
    (ms : List Recording)
    (hsurv : ∀ m ∈ ms, survives e m = true)
    (hknown : ∀ m ∈ ms, 0 ≤ priorityForMimeType lower m.MimeType) :
    (ms = [] ∧ selectBest lower e ms = .error "No recordings found for this event!") ∨
    ∃ b, selectBest lower e ms = .ok b ∧ b ∈ ms ∧
      (∀ r ∈ ms, priorityForMimeType lower b.MimeType ≤ priorityForMimeType lower r.MimeType) ∧
      (∀ r ∈ ms, priorityForMimeType lower r.MimeType = priorityForMimeType lower b.MimeType →
        r.Width ≤ b.Width) := by
  cases ms with
  | nil => exact Or.inl ⟨rfl, rfl⟩
  | cons m ms =>
    right
    obtain ⟨st, hst, hinv⟩ :=
      selectLoop_inv lower e (m :: ms) [] { bestMatch := Recording.zero, highestPriority := -1 }
        (Or.inl ⟨rfl, rfl⟩) (fun r hr _ => hknown r hr)
    have hall : survivors e (m :: ms) = m :: ms :=
      List.filter_eq_self.mpr hsurv
    rw [List.nil_append, hall] at hinv
    rcases hinv with ⟨hnil, _⟩ | ⟨hmem, hpr, _, hbest⟩
    · cases hnil
    · refine ⟨st.bestMatch, ?_, hmem, ?_, ?_⟩
      · simp [selectBest, hst]
      · intro r hr
        rw [← hpr]
        exact (hbest r hr).1
      · intro r hr heq
        rw [← hpr] at heq
        exact (hbest r hr).2 heq

/-- C1 at the example list: the wider of the two webm renditions is chosen. -/
theorem selectBest_min_priority_max_width_witness :
    (∀ m ∈ exRecordings, survives exEvent m = true) ∧
    (∀ m ∈ exRecordings, 0 ≤ priorityForMimeType asciiLower m.MimeType) ∧
    ((exRecordings = [] ∧
        selectBest asciiLower exEvent exRecordings = .error "No recordings found for this event!") ∨
      ∃ b, selectBest asciiLower exEvent exRecordings = .ok b ∧ b ∈ exRecordings ∧
        (∀ r ∈ exRecordings,
          priorityForMimeType asciiLower b.MimeType ≤ priorityForMimeType asciiLower r.MimeType) ∧
        (∀ r ∈ exRecordings,
          priorityForMimeType asciiLower r.MimeType = priorityForMimeType asciiLower b.MimeType →
            r.Width ≤ b.Width)) :=
  ⟨by decide, by decide,
    selectBest_min_priority_max_width asciiLower exEvent exRecordings (by decide) (by decide)⟩

/-- C4, as stated, fails: a recording whose mime type is `VIDEO/WEBM` passes the
filter, its mime type is not an element of `preferredMimeTypes`, and the
selection returns it instead of failing. -/
theorem unknown_mime_counterexample :
    (∃ m ∈ exUpper, survives exEvent m = true ∧ m.MimeType ∉ preferredMimeTypes) ∧
    selectBest asciiLower exEvent exUpper = .ok (mkRec "VIDEO/WEBM" "en" 1920) := by
  decide

/-- C4, amended: when some recording that passes the language filter has a mime
type whose lower-cased form is not an element of `preferredMimeTypes`, the
selection panics with the unknown-mimetype message for such a recording. -/
theorem selectBest_unknown_mime_fails (lower : String → String) (e : Event)
    (ms : List Recording)
    (h : ∃ m ∈ ms, survives e m = true ∧ lower m.MimeType ∉ preferredMimeTypes) :
    ∃ r ∈ ms, survives e r = true ∧ lower r.MimeType ∉ preferredMimeTypes ∧
      selectBest lower e ms = .error ("Unknown mimetype encountered:" ++ r.MimeType) := by
  have h1 : ∃ m ∈ ms, survives e m = true ∧ priorityForMimeType lower m.MimeType < 0 := by
    obtain ⟨m, hm, hs, hn⟩ := h
    exact ⟨m, hm, hs, (priority_neg_iff lower m.MimeType).mpr hn⟩
  obtain ⟨r, hr, hs, hp, hsel⟩ :=
    selectLoop_unknown lower e ms { bestMatch := Recording.zero, highestPriority := -1 } h1
  refine ⟨r, hr, hs, (priority_neg_iff lower r.MimeType).mp hp, ?_⟩
  have hne : (ms.length == 0) = false := by
    cases ms with
    | nil => cases hr
    | cons a as => rfl
  simp [selectBest, hne, hsel]

/-- C4, amended, at a list that holds a `text/plain` recording. -/
theorem selectBest_unknown_mime_fails_witness :
    (∃ m ∈ exUnknown, survives exEvent m = true ∧ asciiLower m.MimeType ∉ preferredMimeTypes) ∧
    ∃ r ∈ exUnknown, survives exEvent r = true ∧ asciiLower r.MimeType ∉ preferredMimeTypes ∧
      selectBest asciiLower exEvent exUnknown
        = .error ("Unknown mimetype encountered:" ++ r.MimeType) :=
  ⟨by decide, selectBest_unknown_mime_fails asciiLower exEvent exUnknown (by decide)⟩

/-- C2, evaluated where the code departs from it: for a non-empty list made only
of translations the selection does not fail; it returns the zero `Recording`,
and the event handler goes on to call `download` with it.  In an empty world
that call creates a file whose name ends in `"."` and passes the empty URL to
`http.Get` before the run stops. -/
theorem only_translations_reach_download :
    (∀ (lower baseName sanPath : String → String) (join : String → String → String)
        (o : Outcome) (w : World) (v : Conference),
      selectBest lower exEvent exTranslations = .ok Recording.zero ∧
      handleEvent lower baseName sanPath join o w v exEvent exTranslations
        = download baseName sanPath join o w v exEvent Recording.zero) ∧
    handleEvent asciiLower id id exJoin exGetFails emptyWorld exConference exEvent exTranslations
      = ({ files := [("downloads/c/Jane Doe - Intro.", [])], dirs := ["downloads/c"],
           gets := [""], copies := 0 }, some "unsupported protocol scheme") := by
  refine ⟨fun _ _ _ _ _ _ _ => ⟨rfl, rfl⟩, by decide⟩

/-- C3, evaluated where the code departs from it: for a list made only of
translations the loop completes and the recording handed on has the empty
language, not the event's original language. -/
theorem only_translations_wrong_language :
    ∃ b, selectBest asciiLower exEvent exTranslations = .ok b ∧
      b.Language ≠ exEvent.OriginalLanguage :=
  ⟨Recording.zero, by decide, by decide⟩

/-- C5, evaluated where the code departs from it: for a list made only of
translations the loop completes and the recording handed on is not an element
of the list. -/
theorem only_translations_not_member :
    ∃ b, selectBest asciiLower exEvent exTranslations = .ok b ∧ b ∉ exTranslations :=
  ⟨Recording.zero, by decide, by decide⟩

/-! ## File names -/

theorem string_length_pos_iff (s : String) : s.length > 0 ↔ s ≠ "" := by
  cases s with
  | mk cs =>
    cases cs with
    | nil => simp [String.length]
    | cons c cs =>
      simp only [String.length, List.length_cons, gt_iff_lt, Nat.zero_lt_succ, ne_eq, true_iff]
      intro h
      have := congrArg String.data h
      simp at this

theorem basename_with_extension (baseName : String → String) (e : Event) (m : Recording)
    (ext : String) (h : extensionForMimeTypes.get m.MimeType = ext) :
    downloadBasename baseName e m
      = downloadAuthor baseName e ++ baseName e.Title ++ downloadSubtitle baseName e
          ++ ("." ++ ext) := by
  unfold downloadBasename
  rw [h, String.append_assoc]

theorem other_mime_no_extension (k : String)
    (hk : k ∉ ["video/webm", "video/mp4", "video/ogg", "audio/ogg", "audio/opus",
      "audio/mpeg"]) :
    extensionForMimeTypes.get k = "" := by
  simp only [List.mem_cons, List.mem_singleton, List.not_mem_nil, or_false, not_or] at hk
  obtain ⟨h1, h2, h3, h4, h5, h6⟩ := hk
  simp [extensionForMimeTypes, StrMap.get, StrMap.set, StrMap.empty, lookupStr, h1, h2, h3, h4,
    h5, h6]

/-- C6: the extension `download` uses for a recording is `webm`, `mp4`, `ogm`,
`ogg`, `opus`, `mp3` for the six registered mime types and the empty string for
every other one, `application/x-subrip` included: the table holds these values,
and the basename `download` computes is the stem (author, title, subtitle)
followed by `.webm`, `.mp4`, `.ogm`, `.ogg`, `.opus`, `.mp3` for the six types
and by a bare `"."` for every other mime type, so the basename of a subtitle
rendition ends in `"."` followed by nothing. -/
theorem extension_table :
    extensionForMimeTypes.get "video/webm" = "webm" ∧
    extensionForMimeTypes.get "video/mp4" = "mp4" ∧
    extensionForMimeTypes.get "video/ogg" = "ogm" ∧
    extensionForMimeTypes.get "audio/ogg" = "ogg" ∧
    extensionForMimeTypes.get "audio/opus" = "opus" ∧
    extensionForMimeTypes.get "audio/mpeg" = "mp3" ∧
    (∀ k : String,
      k ∉ ["video/webm", "video/mp4", "video/ogg", "audio/ogg", "audio/opus", "audio/mpeg"] →
        extensionForMimeTypes.get k = "") ∧
    extensionForMimeTypes.get "application/x-subrip" = "" ∧
    (∀ (baseName : String → String) (e : Event) (m : Recording),
      (m.MimeType = "video/webm" →
        downloadBasename baseName e m
          = downloadAuthor baseName e ++ baseName e.Title ++ downloadSubtitle baseName e
              ++ ".webm") ∧
      (m.MimeType = "video/mp4" →
        downloadBasename baseName e m
          = downloadAuthor baseName e ++ baseName e.Title ++ downloadSubtitle baseName e
              ++ ".mp4") ∧
      (m.MimeType = "video/ogg" →
        downloadBasename baseName e m
          = downloadAuthor baseName e ++ baseName e.Title ++ downloadSubtitle baseName e
              ++ ".ogm") ∧
      (m.MimeType = "audio/ogg" →
        downloadBasename baseName e m
          = downloadAuthor baseName e ++ baseName e.Title ++ downloadSubtitle baseName e
              ++ ".ogg") ∧
      (m.MimeType = "audio/opus" →
        downloadBasename baseName e m
          = downloadAuthor baseName e ++ baseName e.Title ++ downloadSubtitle baseName e
              ++ ".opus") ∧
      (m.MimeType = "audio/mpeg" →
        downloadBasename baseName e m
          = downloadAuthor baseName e ++ baseName e.Title ++ downloadSubtitle baseName e
              ++ ".mp3") ∧
      (m.MimeType ∉ ["video/webm", "video/mp4", "video/ogg", "audio/ogg", "audio/opus",
          "audio/mpeg"] →
        downloadBasename baseName e m
          = downloadAuthor baseName e ++ baseName e.Title ++ downloadSubtitle baseName e
              ++ ".") ∧
      (m.MimeType = "application/x-subrip" →
        downloadBasename baseName e m
          = downloadAuthor baseName e ++ baseName e.Title ++ downloadSubtitle baseName e
              ++ ".")) := by
  refine ⟨by decide, by decide, by decide, by decide, by decide, by decide,
    other_mime_no_extension, by decide, ?_⟩
  intro baseName e m
  refine ⟨?_, ?_, ?_, ?_, ?_, ?_, ?_, ?_⟩
  · intro hm
    exact basename_with_extension baseName e m "webm" (by rw [hm]; decide)
  · intro hm
    exact basename_with_extension baseName e m "mp4" (by rw [hm]; decide)
  · intro hm
    exact basename_with_extension baseName e m "ogm" (by rw [hm]; decide)
  · intro hm
    exact basename_with_extension baseName e m "ogg" (by rw [hm]; decide)
  · intro hm
    exact basename_with_extension baseName e m "opus" (by rw [hm]; decide)
  · intro hm
    exact basename_with_extension baseName e m "mp3" (by rw [hm]; decide)
  · intro hm
    exact basename_with_extension baseName e m "" (other_mime_no_extension m.MimeType hm)
  · intro hm
    exact basename_with_extension baseName e m "" (by rw [hm]; decide)

/-- C6 at the key `text/plain`, at a webm rendition and at a subtitle rendition
of the example event. -/
theorem extension_table_witness :
    "text/plain" ∉ ["video/webm", "video/mp4", "video/ogg", "audio/ogg", "audio/opus",
      "audio/mpeg"] ∧
    extensionForMimeTypes.get "text/plain" = "" ∧
    downloadBasename id exEvent (mkRec "video/webm" "en" 1920) = "Jane Doe - Intro.webm" ∧
    downloadBasename id exEvent (mkRec "application/x-subrip" "en" 0) = "Jane Doe - Intro." :=
  ⟨by decide, extension_table.2.2.2.2.2.2.1 "text/plain" (by decide),
    ((extension_table.2.2.2.2.2.2.2.2 id exEvent (mkRec "video/webm" "en" 1920)).1 rfl).trans
      (by decide),
    ((extension_table.2.2.2.2.2.2.2.2 id exEvent
      (mkRec "application/x-subrip" "en" 0)).2.2.2.2.2.2.2 rfl).trans (by decide)⟩

/-- C7: for every sanitizer `S` standing for `sanitize.BaseName`, every event and
every recording, the basename computed by `download` is
`prefix ++ S title ++ suffix ++ "." ++ extension`, where the prefix is
`S (first person) ++ " - "` when the event has a person and empty otherwise, and
the suffix is `" (" ++ S subtitle ++ ")"` when the subtitle is non-empty and empty
otherwise.  The conference does not enter the basename. -/
theorem downloadBasename_eq_spec (S : String → String) (e : Event) (m : Recording) :
    downloadBasename S e m = specBasename S e m := by
  have hp : downloadAuthor S e = specPrefix S e := by
    unfold downloadAuthor specPrefix
    cases e.Persons with
    | nil => simp
    | cons first rest => simp
  have hs : downloadSubtitle S e = specSuffix S e := by
    unfold downloadSubtitle specSuffix
    by_cases h : e.Subtitle = ""
    · simp [h]
    · have := (string_length_pos_iff e.Subtitle).mpr h
      simp [h, this]
  unfold downloadBasename specBasename
  rw [hp, hs]

/-- C10, evaluated where the code departs from it: the mime string `VIDEO/WEBM`
gets priority index 0, whose entry `video/webm` is registered with the extension
`webm`, but the extension `download` looks up for it is empty. -/
theorem upper_case_mime_has_no_extension :
    priorityForMimeType asciiLower "VIDEO/WEBM" = 0 ∧
    preferredMimeTypes.get? 0 = some "video/webm" ∧
    extensionForMimeTypes.get "video/webm" = "webm" ∧
    extensionForMimeTypes.get "VIDEO/WEBM" = "" := by
  decide

/-! ## `download` over the filesystem and the network -/

theorem mkdirAll_gets (w : World) (o : Outcome) (p : String) :
    (w.mkdirAll o p).gets = w.gets ∧ (w.mkdirAll o p).copies = w.copies := by
  unfold World.mkdirAll
  split <;> simp

theorem create_ok (w w2 : World) (o : Outcome) (p : String) (h : w.create o p = .ok w2) :
    w2.gets = w.gets ∧ w2.copies = w.copies ∧ w2.files.any (fun f => f.1 == p) = true := by
  unfold World.create at h
  split at h
  · cases h
  · split at h
    · cases h
    · cases h
      simp

theorem write_exists (w : World) (p : String) (bytes : List Nat)
    (h : w.files.any (fun f => f.1 == p) = true) :
    (w.write p bytes).statNotExist p = false := by
  unfold World.statNotExist World.write
  simp only [List.any_eq_true, beq_iff_eq] at h
  obtain ⟨f, hf, hfp⟩ := h
  have : ((w.files.map (fun f => if (f.1 == p) = true then (f.1, f.2 ++ bytes) else f)).any
      (fun f => f.1 == p)) = true := by
    simp only [List.any_eq_true, List.mem_map, beq_iff_eq]
    exact ⟨(f.1, f.2 ++ bytes), ⟨f, hf, by simp [hfp]⟩, hfp⟩
  rw [this]
  rfl

/-- One call of `download` either leaves the request log and the copy count as
they were, or issues one request, runs at most one copy and leaves something at
the target path. -/
theorem download_once (baseName sanPath : String → String) (join : String → String → String)
    (o : Outcome) (w : World) (v : Conference) (e : Event) (m : Recording) :
    ((download baseName sanPath join o w v e m).1.gets = w.gets ∧
      (download baseName sanPath join o w v e m).1.copies = w.copies) ∨
    ((download baseName sanPath join o w v e m).1.gets = m.RecordingURL :: w.gets ∧
      (download baseName sanPath join o w v e m).1.copies ≤ w.copies + 1 ∧
      (download baseName sanPath join o w v e m).1.statNotExist
        (downloadFilename baseName sanPath join v e m) = false) := by
  unfold download
  simp only
  split
  · obtain ⟨hg, hc⟩ := mkdirAll_gets w o (downloadDir sanPath join v)
    split
    · left
      exact ⟨hg, hc⟩
    · rename_i w2 hcr
      obtain ⟨hg2, hc2, hex⟩ := create_ok _ w2 o _ hcr
      right
      have hex3 : ({ w2 with gets := m.RecordingURL :: w2.gets } : World).files.any
          (fun f => f.1 == downloadFilename baseName sanPath join v e m) = true := hex
      split
      · refine ⟨by simp [hg2, hg], by simp [hc2, hc], ?_⟩
        unfold World.statNotExist
        simp only [hex, Bool.true_or, Bool.not_true]
      · split
        · exact ⟨by simp [World.write, hg2, hg], by simp [World.write, hc2, hc],
            write_exists _ _ _ hex3⟩
        · exact ⟨by simp [World.write, hg2, hg], by simp [World.write, hc2, hc],
            write_exists _ _ _ hex3⟩
  · left
    exact ⟨rfl, rfl⟩

theorem download_skip (baseName sanPath : String → String) (join : String → String → String)
    (o : Outcome) (w : World) (v : Conference) (e : Event) (m : Recording)
    (h : w.statNotExist (downloadFilename baseName sanPath join v e m) = false) :
    download baseName sanPath join o w v e m = (w, none) := by
  unfold download
  simp [h]

/-- C9: in every state in which `os.Stat` finds something at the computed target
path (a file that already exists there), `download` returns `nil` and leaves the
whole state as it was: no entry is added to the request log and the filesystem
is unchanged.  And two consecutive calls with the same conference, event and
recording, whatever the environment answers in each, issue at most one request
and run at most one copy. -/
theorem download_skips_existing (baseName sanPath : String → String)
    (join : String → String → String) (o1 o2 : Outcome) (w : World) (v : Conference)
    (e : Event) (m : Recording) :
    (w.statNotExist (downloadFilename baseName sanPath join v e m) = false →
      download baseName sanPath join o1 w v e m = (w, none)) ∧
    ((download baseName sanPath join o2
        (download baseName sanPath join o1 w v e m).1 v e m).1.gets.length
        ≤ w.gets.length + 1 ∧
      (download baseName sanPath join o2
        (download baseName sanPath join o1 w v e m).1 v e m).1.copies
        ≤ w.copies + 1) := by
  refine ⟨download_skip baseName sanPath join o1 w v e m, ?_⟩
  rcases download_once baseName sanPath join o1 w v e m with ⟨hg, hc⟩ | ⟨hg, hc, hex⟩
  · rcases download_once baseName sanPath join o2
        (download baseName sanPath join o1 w v e m).1 v e m with ⟨hg2, hc2⟩ | ⟨hg2, hc2, _⟩
    · rw [hg2, hc2, hg, hc]
      exact ⟨Nat.le_succ _, Nat.le_succ _⟩
    · rw [hg2, hg]
      rw [hc] at hc2
      exact ⟨by simp, hc2⟩
  · rw [download_skip baseName sanPath join o2 _ v e m hex, hg]
    exact ⟨by simp, hc⟩

/-- C9 in a world where the target file of the example is already there. -/
theorem download_skips_existing_witness :
    exWorld.statNotExist
        (downloadFilename id id exJoin exConference exEvent (mkRec "video/webm" "en" 1920))
      = false ∧
    download id id exJoin exOutcome exWorld exConference exEvent (mkRec "video/webm" "en" 1920)
      = (exWorld, none) :=
  ⟨by decide,
    (download_skips_existing id id exJoin exOutcome exOutcome exWorld exConference exEvent
      (mkRec "video/webm" "en" 1920)).1 (by decide)⟩

end Sync3c
